import Mathlib

/-!
Verification of the trustarant backend against its design document.

The Rust sources under `src/backend/src` are shallowly embedded here:

* machine integers (`usize`, `u8`, `u64`, `i64`) become `Nat`/`Int`, with
  the `usize` saturation bound made explicit where the code saturates;
* `f32`/`f64` values that are only compared or truncated become `Rat`
  (NaN/infinity are outside the model); the haversine distance, whose
  trigonometry has no exact embedding, is abstracted as a parameter that
  the theorems quantify over;
* `HashMap`s become association lists (the code only ever folds over
  them with order-insensitive operations) or total functions;
* fallible operations return `Except`.

Every definition mirrors one Rust item, named after it.
-/

namespace Trustarant

/-- Rust `u8::to_ascii_lowercase` on one character: only ASCII A–Z moves. -/
def asciiLowerChar (c : Char) : Char :=
  if 'A' ≤ c ∧ c ≤ 'Z' then Char.ofNat (c.toNat + 32) else c

/-- Rust `u8::to_ascii_uppercase` on one character: only ASCII a–z moves. -/
def asciiUpperChar (c : Char) : Char :=
  if 'a' ≤ c ∧ c ≤ 'z' then Char.ofNat (c.toNat - 32) else c

/-- Rust `str::to_ascii_lowercase`. -/
def asciiLower (s : String) : String :=
  String.mk (s.toList.map asciiLowerChar)

/-- Rust `str::to_ascii_uppercase`. -/
def asciiUpper (s : String) : String :=
  String.mk (s.toList.map asciiUpperChar)

/-- Rust `str::eq_ignore_ascii_case`. -/
def eqIgnoreAsciiCase (a b : String) : Bool :=
  asciiLower a = asciiLower b

/-- Rust `str::trim` (drops leading and trailing whitespace). -/
def strTrim (s : String) : String :=
  String.mk
    (((s.toList.dropWhile Char.isWhitespace).reverse.dropWhile
        Char.isWhitespace).reverse)

/-!
## 4.1 Trust Score Evaluator — `trust_score_service.rs`
-/

/-- `ScoreSignals` from `trust_score_service.rs`; `raw_score : Option<f32>`
is embedded as `Option Rat`. -/
structure ScoreSignals where
  raw_score : Option Rat
  letter_grade : Option String
  placard_status : Option String
deriving Repr, DecidableEq

/-- `TrustScoreService::score`.  `raw.clamp(0.0, 100.0) as u8` is the
truncation of the clamped value, which is `Int.floor` since the clamped
value is nonnegative. -/
def TrustScoreService.score (signals : ScoreSignals) : Nat :=
  match signals.raw_score with
  | some raw => (Int.floor (max 0 (min raw 100))).toNat
  | none =>
    match signals.letter_grade with
    | some grade =>
      match asciiUpper grade with
      | "A" => 95
      | "B" => 84
      | "C" => 74
      | _ => 65
    | none =>
      match signals.placard_status with
      | some placard =>
        match asciiLower placard with
        | "green" => 95
        | "pass" => 95
        | "yellow" => 74
        | "conditional" => 74
        | "red" => 40
        | "closed" => 40
        | _ => 60
      | none => 60

/-- The reference evaluator exactly as claim C4 words it: numeric clamp
then truncation; letter grades compared literally (the claim marks only
the placard comparison as case-insensitive); placards case-insensitively. -/
def claimedScore (signals : ScoreSignals) : Nat :=
  match signals.raw_score with
  | some raw => (Int.floor (max 0 (min raw 100))).toNat
  | none =>
    match signals.letter_grade with
    | some grade =>
      if grade = "A" then 95
      else if grade = "B" then 84
      else if grade = "C" then 74
      else 65
    | none =>
      match signals.placard_status with
      | some placard =>
        if asciiLower placard = "green" ∨ asciiLower placard = "pass" then 95
        else if asciiLower placard = "yellow" ∨ asciiLower placard = "conditional" then 74
        else if asciiLower placard = "red" ∨ asciiLower placard = "closed" then 40
        else 60
      | none => 60

/-- Claim C4 amended: the letter-grade comparison is also performed on the
ASCII-uppercased grade, matching the code. -/
def amendedScore (signals : ScoreSignals) : Nat :=
  match signals.raw_score with
  | some raw => (Int.floor (max 0 (min raw 100))).toNat
  | none =>
    match signals.letter_grade with
    | some grade =>
      if asciiUpper grade = "A" then 95
      else if asciiUpper grade = "B" then 84
      else if asciiUpper grade = "C" then 74
      else 65
    | none =>
      match signals.placard_status with
      | some placard =>
        if asciiLower placard = "green" ∨ asciiLower placard = "pass" then 95
        else if asciiLower placard = "yellow" ∨ asciiLower placard = "conditional" then 74
        else if asciiLower placard = "red" ∨ asciiLower placard = "closed" then 40
        else 60
      | none => 60

/-!
## 3. Data model — `domain/entities.rs`

`DateTime<Utc>` instants are embedded as `Int` (epoch seconds);
`f64` coordinates as `Rat` (they are only ever compared).
-/

/-- `Jurisdiction` from `entities.rs`. -/
inductive Jurisdiction
  | LosAngelesCounty
  | SanDiegoCounty
  | LongBeach
  | RiversideCounty
  | SanBernardinoCounty
  | OrangeCounty
  | Pasadena
deriving Repr, DecidableEq

/-- `Jurisdiction::code`. -/
def Jurisdiction.code : Jurisdiction → String
  | .LosAngelesCounty => "lac"
  | .SanDiegoCounty => "sdc"
  | .LongBeach => "lb"
  | .RiversideCounty => "riv"
  | .SanBernardinoCounty => "sbc"
  | .OrangeCounty => "oc"
  | .Pasadena => "pas"

/-- `Jurisdiction::label`. -/
def Jurisdiction.label : Jurisdiction → String
  | .LosAngelesCounty => "Los Angeles County"
  | .SanDiegoCounty => "San Diego County"
  | .LongBeach => "Long Beach"
  | .RiversideCounty => "Riverside County"
  | .SanBernardinoCounty => "San Bernardino County"
  | .OrangeCounty => "Orange County"
  | .Pasadena => "Pasadena"

/-- `Violation` from `entities.rs` (`points : i16` as `Int`). -/
structure Violation where
  code : String
  description : String
  points : Int
  critical : Bool
deriving Repr, DecidableEq

/-- `Inspection` from `entities.rs`. -/
structure Inspection where
  inspection_id : String
  inspected_at : Int
  raw_score : Option Rat
  letter_grade : Option String
  placard_status : Option String
  violations : List Violation
deriving Repr, DecidableEq

/-- `Facility` from `entities.rs` (`trust_score : u8` as `Nat`). -/
structure Facility where
  id : String
  source_id : String
  name : String
  address : String
  city : String
  state : String
  postal_code : String
  latitude : Rat
  longitude : Rat
  jurisdiction : Jurisdiction
  trust_score : Nat
  inspections : List Inspection
  updated_at : Int
deriving Repr, DecidableEq

/-- `VoteValue` from `entities.rs`. -/
inductive VoteValue
  | Like
  | Dislike
deriving Repr, DecidableEq

/-- `FacilityVoteSummary` from `entities.rs` (`likes`, `dislikes : u64`). -/
structure FacilityVoteSummary where
  likes : Nat
  dislikes : Nat
deriving Repr, DecidableEq

/-- `FacilityVoteSummary::score` (`likes as i64 - dislikes as i64`). -/
def FacilityVoteSummary.score (v : FacilityVoteSummary) : Int :=
  (v.likes : Int) - (v.dislikes : Int)

/-- `ScoreSliceCounts` from `entities.rs`. -/
structure ScoreSliceCounts where
  all : Nat
  elite : Nat
  solid : Nat
  watch : Nat
deriving Repr, DecidableEq

/-- `FacilitySearchQuery` from `entities.rs`. -/
structure FacilitySearchQuery where
  q : Option String
  latitude : Option Rat
  longitude : Option Rat
  radius_miles : Option Rat
  jurisdiction : Option String
  sort : Option String
  score_slice : Option String
  recent_only : Option Bool
  page : Option Nat
  page_size : Option Nat
  limit : Option Nat
deriving Repr, DecidableEq

/-- `FacilitySummary` from `dto.rs`, as built by
`directory_service.rs::to_summary`. -/
structure FacilitySummary where
  id : String
  name : String
  address : String
  city : String
  state : String
  postal_code : String
  latitude : Rat
  longitude : Rat
  jurisdiction : String
  trust_score : Nat
  latest_inspection_at : Option Int
  likes : Nat
  dislikes : Nat
  vote_score : Int
deriving Repr, DecidableEq

/-- `FacilitySearchResult` from `dto.rs`. -/
structure FacilitySearchResult where
  count : Nat
  total_count : Nat
  data : List FacilitySummary
  page : Nat
  page_size : Nat
  slice_counts : ScoreSliceCounts
deriving Repr, DecidableEq

/-!
## Vote ledger — `in_memory_facility_repository.rs`

The `HashMap<(String, String), VoteValue>` ledger is embedded as an
association list; the code only inserts into it and folds over it with
order-insensitive counting, so list order is immaterial to every
observable value.
-/

/-- The `(facility_id, voter_key)` ledger. -/
abbrev VoteLedger := List ((String × String) × VoteValue)

/-- `HashMap::insert` on the ledger: overwrite the value when the key is
present, append otherwise. -/
def ledgerInsert (ledger : VoteLedger) (fid voter : String) (vote : VoteValue) :
    VoteLedger :=
  if ledger.any (fun e => e.1 = (fid, voter)) then
    ledger.map (fun e => if e.1 = (fid, voter) then ((fid, voter), vote) else e)
  else
    ledger ++ [((fid, voter), vote)]

/-- The like count the repository accumulates for one facility by folding
over every ledger entry. -/
def likesOf (ledger : VoteLedger) (fid : String) : Nat :=
  (ledger.filter (fun e => e.1.1 = fid ∧ e.2 = VoteValue.Like)).length

/-- The dislike count for one facility. -/
def dislikesOf (ledger : VoteLedger) (fid : String) : Nat :=
  (ledger.filter (fun e => e.1.1 = fid ∧ e.2 = VoteValue.Dislike)).length

/-- The aggregated summary one facility gets out of
`upsert_facility_vote` / `get_facility_vote_summaries` (absent ids
default to `{0, 0}`). -/
def summaryFor (ledger : VoteLedger) (fid : String) : FacilityVoteSummary :=
  { likes := likesOf ledger fid, dislikes := dislikesOf ledger fid }

/-- `InMemoryFacilityRepository::upsert_facility_vote`: insert the vote,
then recount the facility over the whole ledger. -/
def upsert_facility_vote (ledger : VoteLedger) (fid voter : String)
    (vote : VoteValue) : VoteLedger × FacilityVoteSummary :=
  let updated := ledgerInsert ledger fid voter vote
  (updated, summaryFor updated fid)

/-!
## 4.6 Search — `directory_service.rs::DirectoryService::search`

The serving path: `handlers.rs::list_facilities` calls this method, which
pulls `repository.list()` and stages the whole pipeline itself.
-/

/-- The three apostrophe-like characters `normalize_for_search` drops
(U+0027, U+2019, U+0060). -/
def isSearchApostrophe (c : Char) : Bool :=
  c.toNat = 39 || c.toNat = 8217 || c.toNat = 96

/-- Rust `char::is_ascii_alphanumeric`. -/
def isAsciiAlnum (c : Char) : Bool :=
  ('0' ≤ c && c ≤ '9') || ('A' ≤ c && c ≤ 'Z') || ('a' ≤ c && c ≤ 'z')

/-- The character loop of `normalize_for_search`: drop apostrophes,
lowercase ASCII alphanumerics, and collapse every other run into a single
space. -/
def normalizeChars : List Char → Bool → List Char
  | [], _ => []
  | c :: rest, lastWasSpace =>
    if isSearchApostrophe c then normalizeChars rest lastWasSpace
    else if isAsciiAlnum c then asciiLowerChar c :: normalizeChars rest false
    else if lastWasSpace then normalizeChars rest true
    else ' ' :: normalizeChars rest true

/-- `directory_service.rs::normalize_for_search` (loop + final `trim`). -/
def normalize_for_search (s : String) : String :=
  strTrim (String.mk (normalizeChars s.toList false))

/-- Accumulator loop for `split_whitespace` (`acc` holds the current
token reversed); yields no empty tokens. -/
def splitWsAux : List Char → List Char → List String
  | [], acc => if acc.isEmpty then [] else [String.mk acc.reverse]
  | c :: rest, acc =>
    if c.isWhitespace then
      if acc.isEmpty then splitWsAux rest []
      else String.mk acc.reverse :: splitWsAux rest []
    else splitWsAux rest (c :: acc)

/-- Rust `str::split_whitespace`. -/
def splitWs (s : String) : List String :=
  splitWsAux s.toList []

/-- `directory_service.rs::singularize_token`: strip a trailing `s` from
tokens longer than four bytes (tokens here are ASCII, so byte length is
character length). -/
def singularize_token (t : String) : String :=
  if t.toList.length > 4 ∧ t.toList.getLast? = some 's' then
    String.mk t.toList.dropLast
  else t

/-- Rust `str::starts_with` at character level. -/
def listStartsWith : List Char → List Char → Bool
  | [], _ => true
  | _ :: _, [] => false
  | a :: as, b :: bs => a = b && listStartsWith as bs

/-- Rust `str::contains` (substring test) at character level. -/
def listContainsSub (needle : List Char) : List Char → Bool
  | [] => needle.isEmpty
  | b :: bs => listStartsWith needle (b :: bs) || listContainsSub needle bs

/-- Rust `str::contains` on strings. -/
def strContainsSub (hay needle : String) : Bool :=
  listContainsSub needle.toList hay.toList

/-- `directory_service.rs::tokens_match`. -/
def tokens_match (candidateToken queryToken : String) : Bool :=
  candidateToken = queryToken ||
    singularize_token candidateToken = singularize_token queryToken ||
    (candidateToken.length ≥ 4 && queryToken.length ≥ 4 &&
      (strContainsSub candidateToken queryToken ||
        strContainsSub queryToken candidateToken))

/-- The `retain` closure of the text filter: every token of the
normalized query must match some token of the facility's normalized
`"name address city postal_code"` string. -/
def textKeep (term : String) (f : Facility) : Bool :=
  let candidate := normalize_for_search
    (f.name ++ " " ++ f.address ++ " " ++ f.city ++ " " ++ f.postal_code)
  let candidateTokens := splitWs candidate
  (splitWs term).all (fun queryToken =>
    candidateTokens.any (fun candidateToken => tokens_match candidateToken queryToken))

/-- `has_search_term`: the raw query text trims to something non-empty. -/
def hasSearchTerm (q : Option String) : Bool :=
  match q with
  | some v => strTrim v ≠ ""
  | none => false

/-- Search step 1 (text): filter only when the normalized term is
non-empty. -/
def textFiltered (facilities : List Facility) (q : Option String) :
    List Facility :=
  match q with
  | some v =>
    let term := normalize_for_search v
    if term ≠ "" then facilities.filter (textKeep term) else facilities
  | none => facilities

/-- The jurisdiction `retain` closure of `DirectoryService::search`
(lines 64–70): it compares the trimmed lowercased parameter against the
jurisdiction **label** only. -/
def serviceJurisdictionKeep (jur : String) (f : Facility) : Bool :=
  eqIgnoreAsciiCase f.jurisdiction.label jur

/-- The jurisdiction `retain` closure of
`InMemoryFacilityRepository::search_facilities` (lines 155–158): code
match or case-insensitive label match. -/
def repoJurisdictionKeep (jur : String) (f : Facility) : Bool :=
  f.jurisdiction.code = jur || eqIgnoreAsciiCase f.jurisdiction.label jur

/-- The jurisdiction filter exactly as claim C3 words it: the parameter
matches the facility's jurisdiction code or its label, case-insensitively. -/
def claimedJurisdictionKeep (param : String) (f : Facility) : Bool :=
  eqIgnoreAsciiCase f.jurisdiction.code param ||
    eqIgnoreAsciiCase f.jurisdiction.label param

/-- Search step 2 (jurisdiction), as `DirectoryService::search` runs it. -/
def jurisdictionFiltered (facilities : List Facility) (jur : Option String) :
    List Facility :=
  match jur with
  | some v =>
    let j := asciiLower (strTrim v)
    if j ≠ "" ∧ j ≠ "all" then facilities.filter (serviceJurisdictionKeep j)
    else facilities
  | none => facilities

/-- Search step 3 (geo): applied only in browse mode (no search term) and
only when all three parameters are present.  `hav` abstracts
`haversine_miles`, whose trigonometry has no exact rational embedding. -/
def geoFiltered (hav : Rat → Rat → Rat → Rat → Rat) (facilities : List Facility)
    (hasTerm : Bool) (lat lon radius : Option Rat) : List Facility :=
  if hasTerm then facilities
  else
    match lat, lon, radius with
    | some la, some lo, some r =>
      facilities.filter (fun f => hav la lo f.latitude f.longitude ≤ max r (1 / 10))
    | _, _, _ => facilities

/-- `directory_service.rs::latest_inspection_at`. -/
def latest_inspection_at (f : Facility) : Option Int :=
  (f.inspections.map (fun i => i.inspected_at)).max?

/-- `Duration::num_days` of a duration given in seconds (truncating
division, matching chrono). -/
def numDays (seconds : Int) : Int :=
  Int.tdiv seconds 86400

/-- Search step 3½ (recent-only): latest inspection within 90 days of
`now`; facilities with no inspection drop out. -/
def recentFiltered (now : Int) (facilities : List Facility)
    (recentOnly : Option Bool) : List Facility :=
  if recentOnly.getD false then
    facilities.filter (fun f =>
      match latest_inspection_at f with
      | some t => numDays (now - t) ≤ 90
      | none => false)
  else facilities

/-- Step 4: facet counts, computed by four passes over one candidate
list. -/
def sliceCountsOf (facilities : List Facility) : ScoreSliceCounts :=
  { all := facilities.length
    elite := (facilities.filter (fun f => 90 ≤ f.trust_score)).length
    solid := (facilities.filter (fun f => 80 ≤ f.trust_score ∧ f.trust_score < 90)).length
    watch := (facilities.filter (fun f => f.trust_score < 80)).length }

/-- Step 5: the optional score-slice filter (unrecognized values are
ignored, as in the `_ => {}` arm). -/
def sliceFiltered (facilities : List Facility) (slice : Option String) :
    List Facility :=
  match slice with
  | some v =>
    match asciiLower (strTrim v) with
    | "elite" => facilities.filter (fun f => 90 ≤ f.trust_score)
    | "solid" => facilities.filter (fun f => 80 ≤ f.trust_score ∧ f.trust_score < 90)
    | "watch" => facilities.filter (fun f => f.trust_score < 80)
    | _ => facilities
  | none => facilities

/-- Rust `Ord::cmp` on unsigned integers. -/
def cmpNat (a b : Nat) : Ordering :=
  if a < b then .lt else if a = b then .eq else .gt

/-- Rust `Ord::cmp` on signed integers. -/
def cmpInt (a b : Int) : Ordering :=
  if a < b then .lt else if a = b then .eq else .gt

/-- Rust `Ord::cmp` on strings (byte-lexicographic, which for valid
UTF-8 equals code-point-lexicographic). -/
def cmpCharList : List Char → List Char → Ordering
  | [], [] => .eq
  | [], _ :: _ => .lt
  | _ :: _, [] => .gt
  | a :: as, b :: bs => (cmpNat a.toNat b.toNat).then (cmpCharList as bs)

/-- Rust `Ord::cmp` on `String`. -/
def cmpStr (a b : String) : Ordering :=
  cmpCharList a.toList b.toList

/-- The `Ord` instance of `Option<DateTime<Utc>>`: `None` sorts below
`Some`. -/
def cmpOptInt : Option Int → Option Int → Ordering
  | none, none => .eq
  | none, some _ => .lt
  | some _, none => .gt
  | some a, some b => cmpInt a b

/-- The `recent_desc` comparator (latest inspection descending with
`None` last, then trust score descending). -/
def recentDescCmp (l r : Facility) : Ordering :=
  (cmpOptInt (latest_inspection_at r) (latest_inspection_at l)).then
    (cmpNat r.trust_score l.trust_score)

/-- The `name_asc` comparator. -/
def nameAscCmp (l r : Facility) : Ordering :=
  cmpStr l.name r.name

/-- The default comparator (trust score descending, then `updated_at`
descending). -/
def defaultCmp (l r : Facility) : Ordering :=
  (cmpNat r.trust_score l.trust_score).then (cmpInt r.updated_at l.updated_at)

/-- Non-strict "sorts no later than" induced by a comparator. -/
def cmpLe (c : α → α → Ordering) (a b : α) : Bool :=
  c a b != Ordering.gt

/-- Stable insertion: `x` (originally earlier) goes before the first
element it does not sort strictly after. -/
def insertLe (le : α → α → Bool) (x : α) : List α → List α
  | [] => [x]
  | y :: ys => if le x y then x :: y :: ys else y :: insertLe le x ys

/-- A stable sort, standing in for Rust's stable `sort_by`. -/
def stableSort (le : α → α → Bool) : List α → List α
  | [] => []
  | x :: xs => insertLe le x (stableSort le xs)

/-- Step 6: ordering, keyed on the trimmed lowercased `sort` value. -/
def sortFacilities (sort : Option String) (facilities : List Facility) :
    List Facility :=
  match sort.map (fun v => asciiLower (strTrim v)) with
  | some "recent_desc" => stableSort (cmpLe recentDescCmp) facilities
  | some "name_asc" => stableSort (cmpLe nameAscCmp) facilities
  | _ => stableSort (cmpLe defaultCmp) facilities

/-- The candidate set after steps 1–3½ (text, jurisdiction, geo,
recent-only), before the score-slice filter. -/
def preSliceCandidates (hav : Rat → Rat → Rat → Rat → Rat) (now : Int)
    (facilities : List Facility) (query : FacilitySearchQuery) : List Facility :=
  recentFiltered now
    (geoFiltered hav
      (jurisdictionFiltered (textFiltered facilities query.q) query.jurisdiction)
      (hasSearchTerm query.q) query.latitude query.longitude query.radius_miles)
    query.recent_only

/-- The candidate set after the score-slice filter. -/
def postSliceCandidates (hav : Rat → Rat → Rat → Rat → Rat) (now : Int)
    (facilities : List Facility) (query : FacilitySearchQuery) : List Facility :=
  sliceFiltered (preSliceCandidates hav now facilities query) query.score_slice

/-- `usize::MAX`. -/
def usizeMax : Nat := 2 ^ 64 - 1

/-- `usize::saturating_mul`. -/
def satMul (a b : Nat) : Nat :=
  min (a * b) usizeMax

/-- The effective page (`query.page.unwrap_or(1).max(1)`). -/
def effectivePage (query : FacilitySearchQuery) : Nat :=
  max (query.page.getD 1) 1

/-- The effective page size
(`query.page_size.or(query.limit).unwrap_or(50).clamp(1, 200)`). -/
def effectivePageSize (query : FacilitySearchQuery) : Nat :=
  min (max ((query.page_size.or query.limit).getD 50) 1) 200

/-- `directory_service.rs::to_summary`. -/
def to_summary (f : Facility) (v : FacilityVoteSummary) : FacilitySummary :=
  { id := f.id
    name := f.name
    address := f.address
    city := f.city
    state := f.state
    postal_code := f.postal_code
    latitude := f.latitude
    longitude := f.longitude
    jurisdiction := f.jurisdiction.label
    trust_score := f.trust_score
    latest_inspection_at := latest_inspection_at f
    likes := v.likes
    dislikes := v.dislikes
    vote_score := v.score }

/-- `DirectoryService::search`, over the in-memory repository state
(`facilities` is what `repository.list()` returns, `ledger` feeds
`get_facility_vote_summaries`).  `hav` abstracts `haversine_miles` and
`now` the `Utc::now()` read by the recent-only filter. -/
def DirectoryService.search (hav : Rat → Rat → Rat → Rat → Rat) (now : Int)
    (facilities : List Facility) (ledger : VoteLedger)
    (query : FacilitySearchQuery) : FacilitySearchResult :=
  let sorted := sortFacilities query.sort (postSliceCandidates hav now facilities query)
  let page_size := effectivePageSize query
  let page := effectivePage query
  let total_count := sorted.length
  let offset := satMul (page - 1) page_size
  let pageFacilities := (sorted.drop offset).take page_size
  let data := pageFacilities.map (fun f => to_summary f (summaryFor ledger f.id))
  { count := data.length
    total_count := total_count
    data := data
    page := page
    page_size := page_size
    slice_counts := sliceCountsOf (preSliceCandidates hav now facilities query) }

/-!
## 4.8 Top picks — `directory_service.rs::DirectoryService::top_picks`
-/

/-- The `sort_by` comparator of `top_picks`: likes descending, then vote
score descending, then trust score descending, then `updated_at`
descending. -/
def topPicksCmp (l r : Facility × FacilityVoteSummary) : Ordering :=
  (((cmpNat r.2.likes l.2.likes).then
        (cmpInt r.2.score l.2.score)).then
      (cmpNat r.1.trust_score l.1.trust_score)).then
    (cmpInt r.1.updated_at l.1.updated_at)

/-- The `ranked` vector right after the sort: every facility joined with
its vote summary, entries without likes dropped, then stably sorted. -/
def topPicksRanked (facilities : List Facility) (ledger : VoteLedger) :
    List (Facility × FacilityVoteSummary) :=
  stableSort (cmpLe topPicksCmp)
    ((facilities.map (fun f => (f, summaryFor ledger f.id))).filter
      (fun p => 0 < p.2.likes))

/-- `DirectoryService::top_picks`.  The two `is_empty` early returns both
return the empty list, which the general path also produces, so they are
collapsed. -/
def DirectoryService.top_picks (facilities : List Facility)
    (ledger : VoteLedger) (limit : Nat) : List FacilitySummary :=
  let capped_limit := min (max limit 1) 50
  ((topPicksRanked facilities ledger).take capped_limit).map
    (fun p => to_summary p.1 p.2)

/-!
## Vote upsert sequences (for C6)
-/

/-- `HashMap::get`-style lookup of a voter's current vote. -/
def ledgerLookup (l : VoteLedger) (k : String × String) : Option VoteValue :=
  (l.find? (fun e => e.1 = k)).map (fun e => e.2)

/-- The ledger produced by a sequence of `upsert_facility_vote` calls
starting from an empty repository. -/
def applyVotes (ops : List ((String × String) × VoteValue)) : VoteLedger :=
  ops.foldl (fun l op => ledgerInsert l op.1.1 op.1.2 op.2) []

/-!
## 4.3 Ingestion — `ingestion_service.rs`

`refresh()` is embedded as a pure transition on the in-memory repository
state.  Connector fetching (network I/O, retry sleeps) is abstracted by
handing the function the post-retry outcome of every connector in
configured order; everything downstream of those outcomes is the code's
own logic.  The in-memory repository's `replace_all` and
`set_system_ingestion_status` are infallible, so the two `map_err` arms
of `refresh` are unreachable in this instantiation.
-/

/-- `SourceFacilityInput` from `dto.rs`. -/
structure SourceFacilityInput where
  source_id : String
  name : String
  address : String
  city : String
  state : String
  postal_code : String
  latitude : Rat
  longitude : Rat
  jurisdiction : Jurisdiction
  inspected_at : Int
  raw_score : Option Rat
  letter_grade : Option String
  placard_status : Option String
  violations : List Violation
deriving Repr, DecidableEq

/-- `ConnectorIngestionStatus` from `entities.rs`. -/
structure ConnectorIngestionStatus where
  source : String
  fetched_records : Nat
  error : Option String
deriving Repr, DecidableEq

/-- `SystemIngestionStatus` from `entities.rs`. -/
structure SystemIngestionStatus where
  last_refresh_at : Int
  unique_facilities : Nat
  connector_stats : List ConnectorIngestionStatus
deriving Repr, DecidableEq

/-- The observable state of the in-memory repository: the facility
snapshot, the single status slot, and the vote ledger. -/
structure RepoState where
  facilities : List Facility
  ingestion_status : Option SystemIngestionStatus
  votes : VoteLedger
deriving Repr, DecidableEq

/-- `ingestion_service.rs::dedupe_key`. -/
def dedupe_key (r : SourceFacilityInput) : String :=
  asciiLower (strTrim r.name) ++ "|" ++ asciiLower (strTrim r.address) ++ "|" ++
    asciiLower (strTrim r.city) ++ "|" ++ asciiLower (strTrim r.postal_code)

/-- One `stitched.entry(key).and_modify(..).or_insert(record)` step: on a
key collision keep the record with the later `inspected_at`. -/
def stitchInsert (m : List (String × SourceFacilityInput))
    (r : SourceFacilityInput) : List (String × SourceFacilityInput) :=
  let key := dedupe_key r
  if m.any (fun e => e.1 = key) then
    m.map (fun e => if e.1 = key ∧ e.2.inspected_at < r.inspected_at then (key, r) else e)
  else
    m ++ [(key, r)]

/-- The post-retry outcome of one connector: its `source_name` and either
the fetched records or the final error message. -/
abbrev ConnectorOutcome := String × Except String (List SourceFacilityInput)

/-- The connector loop of `refresh`: accumulates the stitched map, the
per-connector stats (in order), and the count of successful connectors. -/
def connectorLoop (outcomes : List ConnectorOutcome) :
    List (String × SourceFacilityInput) × List ConnectorIngestionStatus × Nat :=
  outcomes.foldl
    (fun acc o =>
      match o.2 with
      | .ok records =>
        (records.foldl stitchInsert acc.1,
          acc.2.1 ++ [⟨o.1, records.length, none⟩],
          acc.2.2 + 1)
      | .error e =>
        (acc.1, acc.2.1 ++ [⟨o.1, 0, some e⟩], acc.2.2))
    ([], [], 0)

/-- `IngestionService::normalize`: trust score from the signals, one
synthetic inspection, canonical facility id, `updated_at = now`. -/
def IngestionService.normalize (now : Int) (r : SourceFacilityInput) : Facility :=
  let trust_score := TrustScoreService.score
    ⟨r.raw_score, r.letter_grade, r.placard_status⟩
  let inspection : Inspection :=
    { inspection_id := r.jurisdiction.code ++ "-" ++ r.source_id
      inspected_at := r.inspected_at
      raw_score := r.raw_score
      letter_grade := r.letter_grade
      placard_status := r.placard_status
      violations := r.violations }
  { id := r.jurisdiction.code ++ "::" ++ r.source_id
    source_id := r.source_id
    name := r.name
    address := r.address
    city := r.city
    state := r.state
    postal_code := r.postal_code
    latitude := r.latitude
    longitude := r.longitude
    jurisdiction := r.jurisdiction
    trust_score := trust_score
    inspections := [inspection]
    updated_at := now }

/-- The outcome of one `refresh()` call: its return value, the repository
state it leaves behind, and whether `replace_all` was invoked. -/
structure RefreshOutcome where
  result : Except String Unit
  state : RepoState
  calledReplaceAll : Bool
deriving Repr

/-- The three safety gates of `refresh`, in the code's order; `some msg`
means the cycle bails with that error. -/
def refreshGate (previous : Option SystemIngestionStatus)
    (stitched : List (String × SourceFacilityInput)) (successful : Nat) :
    Option String :=
  if successful = 0 then
    some "no connectors succeeded; keeping previous dataset untouched"
  else if stitched.isEmpty then
    some "ingestion produced zero facilities; keeping previous dataset untouched"
  else
    match previous with
    | some prev =>
      if stitched.length < max (prev.unique_facilities / 2) 1 then
        some "ingestion result too small, keeping previous dataset untouched"
      else none
    | none => none

/-- `IngestionService::refresh` over the in-memory repository.  A `some`
gate aborts before any write; otherwise the snapshot is replaced and the
status row written. -/
def IngestionService.refresh (state : RepoState)
    (outcomes : List ConnectorOutcome) (now : Int) : RefreshOutcome :=
  let previous_status := state.ingestion_status
  let loop := connectorLoop outcomes
  let stitched := loop.1
  let connector_stats := loop.2.1
  let successful_connectors := loop.2.2
  match refreshGate previous_status stitched successful_connectors with
  | some msg => { result := .error msg, state := state, calledReplaceAll := false }
  | none =>
    let facilities := stitched.map (fun e => IngestionService.normalize now e.2)
    let snapshot : SystemIngestionStatus :=
      { last_refresh_at := now
        unique_facilities := facilities.length
        connector_stats := connector_stats }
    { result := .ok ()
      state :=
        { facilities := facilities
          ingestion_status := some snapshot
          votes := state.votes }
      calledReplaceAll := true }

/-!
## 4.9 Rate limiter — `presentation/http/rate_limit.rs`

`Instant`s are embedded as `Nat` ticks; `now.duration_since(t)` is `now - t`
(the limiter only ever stores past instants).  The `HashMap` of queues is a
total function with `[]` for absent keys, under which the code's
remove-then-reinsert eviction is the same map update.
-/

/-- The `while let Some(front)` drain loop: pop leading timestamps
strictly older than the window. -/
def drainOld (window now : Nat) : List Nat → List Nat
  | [] => []
  | t :: rest => if now - t > window then drainOld window now rest else t :: rest

/-- `RateLimiter::allow` for one key: returns the decision and the
updated queue map. -/
def RateLimiter.allow (maxRequests window : Nat) (m : String → List Nat)
    (key : String) (now : Nat) : Bool × (String → List Nat) :=
  let queue := drainOld window now (m key)
  if queue.isEmpty then
    (true, fun k => if k = key then [now] else m k)
  else if maxRequests ≤ queue.length then
    (false, fun k => if k = key then queue else m k)
  else
    (true, fun k => if k = key then queue ++ [now] else m k)

/-- The limiter exactly as claim C7 words it: discard the key's
timestamps older than the window, reject when the remaining count is
`≥ max_requests`, otherwise append `now` and accept. -/
def claimedAllow (maxRequests window : Nat) (m : String → List Nat)
    (key : String) (now : Nat) : Bool × (String → List Nat) :=
  let remaining := (m key).filter (fun t => now - t ≤ window)
  if maxRequests ≤ remaining.length then
    (false, fun k => if k = key then remaining else m k)
  else
    (true, fun k => if k = key then remaining ++ [now] else m k)

/-!
## Counting helpers for the vote ledger (used by the C6 statements)
-/

/-- How many ledger entries carry exactly the key `k` — the "contribution"
of one voter to one facility. -/
def countKeyIn (l : VoteLedger) (k : String × String) : Nat :=
  (l.filter (fun e => e.1 = k)).length

/-- How many ledger entries vote `v` on facility `fid`
(`likesOf l fid = voteCountOf l fid .Like` definitionally). -/
def voteCountOf (l : VoteLedger) (fid : String) (v : VoteValue) : Nat :=
  (l.filter (fun e => e.1.1 = fid ∧ e.2 = v)).length

/-!
## Concrete fixtures used by witnesses and counterexamples
-/

/-- A degenerate distance function for concrete runs where geo is unused. -/
def hav0 : Rat → Rat → Rat → Rat → Rat := fun _ _ _ _ => 0

/-- A query with every parameter absent. -/
def emptyQuery : FacilitySearchQuery :=
  { q := none, latitude := none, longitude := none, radius_miles := none,
    jurisdiction := none, sort := none, score_slice := none,
    recent_only := none, page := none, page_size := none, limit := none }

/-- An Orange County facility in the watch slice (trust 72). -/
def facOC : Facility :=
  { id := "oc::1", source_id := "1", name := "Tasty", address := "1 Main St",
    city := "Irvine", state := "CA", postal_code := "92602",
    latitude := 0, longitude := 0, jurisdiction := .OrangeCounty,
    trust_score := 72, inspections := [], updated_at := 0 }

/-- An elite-slice facility (trust 95). -/
def facElite : Facility :=
  { id := "lac::2", source_id := "2", name := "Great", address := "2 Main St",
    city := "Los Angeles", state := "CA", postal_code := "90001",
    latitude := 0, longitude := 0, jurisdiction := .LosAngelesCounty,
    trust_score := 95, inspections := [], updated_at := 0 }

/-- One connector source record. -/
def rec1 : SourceFacilityInput :=
  { source_id := "7", name := "Cafe", address := "3 Main St", city := "Irvine",
    state := "CA", postal_code := "92602", latitude := 0, longitude := 0,
    jurisdiction := .OrangeCounty, inspected_at := 0, raw_score := some 90,
    letter_grade := none, placard_status := none, violations := [] }

/-- A repository state holding one facility and a 1000-facility status row. -/
def st1000 : RepoState :=
  { facilities := [facElite]
    ingestion_status := some
      { last_refresh_at := 0, unique_facilities := 1000, connector_stats := [] }
    votes := [] }

/-- A rate-limiter map whose only populated key holds five accepts. -/
def m5 : String → List Nat := fun k => if k = "k" then [0, 10, 20, 30, 40] else []

/-- One upsert: voter `v` likes facility `f`. -/
def ops0 : List ((String × String) × VoteValue) := [(("f", "v"), .Like)]

/-- A ledger with a single like on `oc::1`. -/
def ledgerTP : VoteLedger := [(("oc::1", "v"), .Like)]

/-!
## Theorems
-/

theorem length_insertLe (le : α → α → Bool) (x : α) (l : List α) :
    (insertLe le x l).length = l.length + 1 := by
  induction l with
  | nil => rfl
  | cons y ys ih =>
    unfold insertLe
    by_cases h : le x y = true
    · simp [h]
    · simp [h, ih]

theorem length_stableSort (le : α → α → Bool) (l : List α) :
    (stableSort le l).length = l.length := by
  induction l with
  | nil => rfl
  | cons x xs ih => simp [stableSort, length_insertLe, ih]

theorem mem_insertLe (le : α → α → Bool) (x y : α) (l : List α) :
    y ∈ insertLe le x l ↔ y = x ∨ y ∈ l := by
  induction l with
  | nil => simp [insertLe]
  | cons z zs ih =>
    unfold insertLe
    by_cases h : le x z = true
    · simp [h]
    · simp [h, ih]
      tauto

theorem mem_stableSort (le : α → α → Bool) (x : α) (l : List α) :
    x ∈ stableSort le l ↔ x ∈ l := by
  induction l with
  | nil => simp [stableSort]
  | cons y ys ih =>
    simp [stableSort, mem_insertLe, ih]

theorem length_sortFacilities (sort : Option String) (l : List Facility) :
    (sortFacilities sort l).length = l.length := by
  unfold sortFacilities
  split <;> exact length_stableSort _ _

/-- C2: `slice_counts` is computed over the candidate set after the
text/geo, jurisdiction and recent-only filters but before the score-slice
filter; `total_count` is the size of the candidate set after the
score-slice filter; and for each of the three named slices, `total_count`
equals that field of `slice_counts`. -/
theorem C2_slice_counts (hav : Rat → Rat → Rat → Rat → Rat) (now : Int)
    (facilities : List Facility) (ledger : VoteLedger)
    (query : FacilitySearchQuery) :
    let r := DirectoryService.search hav now facilities ledger query
    r.slice_counts = sliceCountsOf (preSliceCandidates hav now facilities query) ∧
    r.total_count = (postSliceCandidates hav now facilities query).length ∧
    (query.score_slice = some "elite" → r.total_count = r.slice_counts.elite) ∧
    (query.score_slice = some "solid" → r.total_count = r.slice_counts.solid) ∧
    (query.score_slice = some "watch" → r.total_count = r.slice_counts.watch) := by
  intro r
  have htotal : r.total_count = (postSliceCandidates hav now facilities query).length :=
    length_sortFacilities _ _
  refine ⟨rfl, htotal, ?_, ?_, ?_⟩ <;> intro h <;> rw [htotal] <;>
    simp only [postSliceCandidates, h] <;> rfl

/-- C2 witness: a concrete elite-slice query on a two-facility snapshot. -/
theorem C2_slice_counts_witness :
    ({ emptyQuery with score_slice := some "elite" } : FacilitySearchQuery).score_slice
        = some "elite" ∧
    (DirectoryService.search hav0 0 [facOC, facElite] []
        { emptyQuery with score_slice := some "elite" }).total_count =
      (DirectoryService.search hav0 0 [facOC, facElite] []
        { emptyQuery with score_slice := some "elite" }).slice_counts.elite :=
  ⟨rfl,
    (C2_slice_counts hav0 0 [facOC, facElite] []
      { emptyQuery with score_slice := some "elite" }).2.2.1 rfl⟩

/-- C3: the spec requires the jurisdiction filter to accept either the
code or the label, and `InMemoryFacilityRepository::search_facilities`
does; but the serving path `DirectoryService::search` compares only the
label, so the query `jurisdiction = "oc"` drops the Orange County
facility (total 0) that `jurisdiction = "Orange County"` keeps (total 1). -/
theorem C3_jurisdiction_code_bug :
    claimedJurisdictionKeep "oc" facOC = true ∧
    repoJurisdictionKeep "oc" facOC = true ∧
    serviceJurisdictionKeep "oc" facOC = false ∧
    (DirectoryService.search hav0 0 [facOC] []
      { emptyQuery with jurisdiction := some "oc" }).total_count = 0 ∧
    (DirectoryService.search hav0 0 [facOC] []
      { emptyQuery with jurisdiction := some "Orange County" }).total_count = 1 := by
  refine ⟨?_, ?_, ?_, ?_, ?_⟩ <;> decide

/-- C10: the pagination offset is a saturating product (never exceeding
`usize::MAX`), and a page starting at or past the end of the post-slice
candidate set yields empty `data` with `count = 0` while `total_count`,
`page`, `page_size` and `slice_counts` are still reported for the full
candidate set. -/
theorem C10_pagination_total (hav : Rat → Rat → Rat → Rat → Rat) (now : Int)
    (facilities : List Facility) (ledger : VoteLedger)
    (query : FacilitySearchQuery)
    (h : (postSliceCandidates hav now facilities query).length ≤
      satMul (effectivePage query - 1) (effectivePageSize query)) :
    let r := DirectoryService.search hav now facilities ledger query
    r.data = [] ∧ r.count = 0 ∧
    r.total_count = (postSliceCandidates hav now facilities query).length ∧
    r.page = effectivePage query ∧
    r.page_size = effectivePageSize query ∧
    r.slice_counts = sliceCountsOf (preSliceCandidates hav now facilities query) ∧
    satMul (effectivePage query - 1) (effectivePageSize query) ≤ usizeMax := by
  intro r
  have hlen : (sortFacilities query.sort (postSliceCandidates hav now facilities query)).length ≤
      satMul (effectivePage query - 1) (effectivePageSize query) := by
    rw [length_sortFacilities]; exact h
  have hdrop : (sortFacilities query.sort
      (postSliceCandidates hav now facilities query)).drop
        (satMul (effectivePage query - 1) (effectivePageSize query)) = [] :=
    List.drop_eq_nil_of_le hlen
  have hdata : r.data = [] := by
    show ((((sortFacilities query.sort (postSliceCandidates hav now facilities query)).drop
      (satMul (effectivePage query - 1) (effectivePageSize query))).take
        (effectivePageSize query)).map _) = []
    rw [hdrop]
    simp
  refine ⟨hdata, ?_, length_sortFacilities _ _, rfl, rfl, rfl, min_le_right _ _⟩
  show r.data.length = 0
  rw [hdata]
  rfl

/-- C10 witness: page 3 of size 50 over a one-facility snapshot. -/
theorem C10_pagination_witness :
    ((postSliceCandidates hav0 0 [facOC]
        { emptyQuery with page := some 3 }).length ≤
      satMul (effectivePage { emptyQuery with page := some 3 } - 1)
        (effectivePageSize { emptyQuery with page := some 3 })) ∧
    (DirectoryService.search hav0 0 [facOC] []
        { emptyQuery with page := some 3 }).data = [] ∧
    (DirectoryService.search hav0 0 [facOC] []
        { emptyQuery with page := some 3 }).total_count = 1 :=
  ⟨by decide,
    (C10_pagination_total hav0 0 [facOC] [] { emptyQuery with page := some 3 }
      (by decide)).1,
    by decide⟩

theorem geoFiltered_of_hasTerm (hav : Rat → Rat → Rat → Rat → Rat)
    (l : List Facility) (la lo ra : Option Rat) :
    geoFiltered hav l true la lo ra = l := rfl

/-- C8: with a non-empty text term, the geo parameters play no role:
two searches differing only in latitude/longitude/radius return the
same result (same candidate set, counts, ordering and page). -/
theorem C8_text_mode_ignores_geo (hav : Rat → Rat → Rat → Rat → Rat)
    (now : Int) (facilities : List Facility) (ledger : VoteLedger)
    (query : FacilitySearchQuery) (lat1 lon1 rad1 lat2 lon2 rad2 : Option Rat)
    (t : String) (hq : query.q = some t) (ht : strTrim t ≠ "") :
    DirectoryService.search hav now facilities ledger
      { query with latitude := lat1, longitude := lon1, radius_miles := rad1 } =
    DirectoryService.search hav now facilities ledger
      { query with latitude := lat2, longitude := lon2, radius_miles := rad2 } := by
  have hterm : hasSearchTerm query.q = true := by
    rw [hq]
    simp [hasSearchTerm, ht]
  simp only [DirectoryService.search, postSliceCandidates, preSliceCandidates,
    hterm, geoFiltered_of_hasTerm]
  rfl

/-- C8 witness: searching for a name with and without a tight geo radius
yields identical results. -/
theorem C8_text_mode_witness :
    ({ emptyQuery with q := some "tasty" } : FacilitySearchQuery).q = some "tasty" ∧
    strTrim "tasty" ≠ "" ∧
    DirectoryService.search hav0 0 [facOC, facElite] []
        { emptyQuery with
          q := some "tasty"
          latitude := some 34
          longitude := some (-118)
          radius_miles := some 5 } =
      DirectoryService.search hav0 0 [facOC, facElite] []
        { emptyQuery with q := some "tasty" } :=
  ⟨rfl, by decide,
    C8_text_mode_ignores_geo hav0 0 [facOC, facElite] []
      { emptyQuery with q := some "tasty" } (some 34) (some (-118)) (some 5)
      none none none "tasty" rfl (by decide)⟩

/-- C1: a refresh that returns an error leaves the observable repository
state — the facility snapshot behind `list()` and the status behind
`get_system_ingestion_status()` — exactly as it was. -/
theorem C1_failed_refresh_preserves_state (st : RepoState)
    (outcomes : List ConnectorOutcome) (now : Int) (msg : String)
    (h : (IngestionService.refresh st outcomes now).result = .error msg) :
    (IngestionService.refresh st outcomes now).state.facilities = st.facilities ∧
    (IngestionService.refresh st outcomes now).state.ingestion_status =
      st.ingestion_status := by
  simp only [IngestionService.refresh] at h ⊢
  cases hg : refreshGate st.ingestion_status (connectorLoop outcomes).1
      (connectorLoop outcomes).2.2 with
  | some m => exact ⟨rfl, rfl⟩
  | none =>
    rw [hg] at h
    exact Except.noConfusion h

/-- C1 witness: a cycle in which every connector failed errors out and
preserves the snapshot and the status row. -/
theorem C1_failed_refresh_witness :
    (IngestionService.refresh st1000 [("x", .error "boom")] 5).result =
      .error "no connectors succeeded; keeping previous dataset untouched" ∧
    (IngestionService.refresh st1000 [("x", .error "boom")] 5).state.facilities =
      st1000.facilities ∧
    (IngestionService.refresh st1000 [("x", .error "boom")] 5).state.ingestion_status =
      st1000.ingestion_status :=
  ⟨rfl,
    (C1_failed_refresh_preserves_state st1000 [("x", .error "boom")] 5
      "no connectors succeeded; keeping previous dataset untouched" rfl).1,
    (C1_failed_refresh_preserves_state st1000 [("x", .error "boom")] 5
      "no connectors succeeded; keeping previous dataset untouched" rfl).2⟩

/-- C5: when a previous status exists with `p` unique facilities and the
cycle stitches fewer than `max(1, p/2)` records, the refresh errors,
never calls `replace_all`, and leaves the whole state untouched. -/
theorem C5_safety_gate (st : RepoState) (outcomes : List ConnectorOutcome)
    (now : Int) (prev : SystemIngestionStatus)
    (hprev : st.ingestion_status = some prev)
    (hsmall : (connectorLoop outcomes).1.length <
      max 1 (prev.unique_facilities / 2)) :
    (∃ msg, (IngestionService.refresh st outcomes now).result = .error msg) ∧
    (IngestionService.refresh st outcomes now).calledReplaceAll = false ∧
    (IngestionService.refresh st outcomes now).state = st := by
  have hgate : ∃ msg, refreshGate st.ingestion_status (connectorLoop outcomes).1
      (connectorLoop outcomes).2.2 = some msg := by
    rw [hprev]
    unfold refreshGate
    by_cases h0 : (connectorLoop outcomes).2.2 = 0
    · exact ⟨"no connectors succeeded; keeping previous dataset untouched",
        by simp [h0]⟩
    · by_cases h1 : (connectorLoop outcomes).1.isEmpty
      · exact ⟨"ingestion produced zero facilities; keeping previous dataset untouched",
          by simp [h0, h1]⟩
      · have hlt : (connectorLoop outcomes).1.length <
            max (prev.unique_facilities / 2) 1 := by omega
        exact ⟨"ingestion result too small, keeping previous dataset untouched",
          by simp [h0, h1, hlt]⟩
  obtain ⟨msg, hg⟩ := hgate
  refine ⟨⟨msg, ?_⟩, ?_, ?_⟩ <;> simp [IngestionService.refresh, hg]

/-- C5 witness: previous count 1000, one connector succeeding with a
single record (1 < 500): the refresh errors without replacing anything. -/
theorem C5_safety_gate_witness :
    st1000.ingestion_status = some
      { last_refresh_at := 0, unique_facilities := 1000, connector_stats := [] } ∧
    (connectorLoop [("src", .ok [rec1])]).1.length < max 1 (1000 / 2) ∧
    ((∃ msg, (IngestionService.refresh st1000 [("src", .ok [rec1])] 5).result =
        .error msg) ∧
      (IngestionService.refresh st1000 [("src", .ok [rec1])] 5).calledReplaceAll =
        false ∧
      (IngestionService.refresh st1000 [("src", .ok [rec1])] 5).state = st1000) :=
  ⟨rfl, by decide,
    C5_safety_gate st1000 [("src", .ok [rec1])] 5
      { last_refresh_at := 0, unique_facilities := 1000, connector_stats := [] }
      rfl (by decide)⟩

theorem drainOld_eq_filter (window now : Nat) (l : List Nat)
    (h : l.Pairwise (fun a b => a ≤ b)) :
    drainOld window now l = l.filter (fun t => now - t ≤ window) := by
  induction l with
  | nil => rfl
  | cons t rest ih =>
    obtain ⟨hall, hrest⟩ := List.pairwise_cons.mp h
    simp only [drainOld]
    by_cases hd : now - t > window
    · have hp : ¬ (decide (now - t ≤ window) = true) := by
        simp only [decide_eq_true_eq]
        omega
      rw [if_pos hd, ih hrest, List.filter_cons, if_neg hp]
    · have hp : decide (now - t ≤ window) = true := by
        simp only [decide_eq_true_eq]
        omega
      have hfilter_rest : rest.filter (fun x => now - x ≤ window) = rest := by
        apply List.filter_eq_self.mpr
        intro x hx
        have hx2 := hall x hx
        simp only [decide_eq_true_eq]
        omega
      rw [if_neg hd, List.filter_cons, if_pos hp, hfilter_rest]

/-- C7 counterexample: with `max_requests = 0` and an empty queue the
code accepts (the empty-queue branch runs before the capacity check),
while the claimed algorithm rejects because `0 ≥ max_requests`. -/
theorem C7_counterexample :
    (RateLimiter.allow 0 60 (fun _ => []) "k" 5).1 = true ∧
    (claimedAllow 0 60 (fun _ => []) "k" 5).1 = false := by
  constructor <;> rfl

/-- C7 (amended): for every key and every configuration with
`max_requests ≥ 1`, `allow()` behaves exactly as the claim describes:
it discards the key's recorded accept-timestamps older than the window,
rejects when the remaining count is `≥ max_requests`, and otherwise
appends the current instant and accepts — both the decision and the
resulting queue map agree with the claimed algorithm.  (The recorded
queue is always in arrival order, hence the `Pairwise` hypothesis.) -/
theorem C7_rate_limiter (maxRequests window : Nat) (m : String → List Nat)
    (key : String) (now : Nat)
    (hsort : (m key).Pairwise (fun a b => a ≤ b)) (hmax : 1 ≤ maxRequests) :
    RateLimiter.allow maxRequests window m key now =
      claimedAllow maxRequests window m key now := by
  have hdrain := drainOld_eq_filter window now (m key) hsort
  simp only [RateLimiter.allow, claimedAllow, hdrain]
  cases hfe : (m key).filter (fun t => now - t ≤ window) with
  | nil =>
    have hcap : maxRequests ≠ 0 := by omega
    simp [hcap]
  | cons t ts =>
    simp [List.isEmpty]

/-- C7 witness: `max_requests = 5`, `window = 60`; after five accepts at
ticks 0..40 the sixth call at tick 50 is rejected, and at tick 61 — more
than 60 ticks after the first accept — one slot has opened. -/
theorem C7_rate_limiter_witness :
    RateLimiter.allow 5 60 m5 "k" 50 = claimedAllow 5 60 m5 "k" 50 ∧
    (RateLimiter.allow 5 60 m5 "k" 50).1 = false ∧
    (RateLimiter.allow 5 60 m5 "k" 61).1 = true :=
  ⟨C7_rate_limiter 5 60 m5 "k" 50 (by decide) (by decide), rfl, rfl⟩

theorem countKeyIn_cons (e : (String × String) × VoteValue) (l : VoteLedger)
    (k : String × String) :
    countKeyIn (e :: l) k = (if e.1 = k then 1 else 0) + countKeyIn l k := by
  simp only [countKeyIn, List.filter_cons]
  by_cases h : e.1 = k
  · simp [h, Nat.add_comm]
  · simp [h]

theorem voteCountOf_cons (e : (String × String) × VoteValue) (l : VoteLedger)
    (fid : String) (v : VoteValue) :
    voteCountOf (e :: l) fid v =
      (if e.1.1 = fid ∧ e.2 = v then 1 else 0) + voteCountOf l fid v := by
  simp only [voteCountOf, List.filter_cons]
  by_cases h : e.1.1 = fid ∧ e.2 = v
  · simp [h, Nat.add_comm]
  · simp [h]

theorem countKeyIn_map_keyfix (l : VoteLedger)
    (g : (String × String) × VoteValue → (String × String) × VoteValue)
    (hg : ∀ e, (g e).1 = e.1) (k : String × String) :
    countKeyIn (l.map g) k = countKeyIn l k := by
  induction l with
  | nil => rfl
  | cons e rest ih =>
    rw [List.map_cons, countKeyIn_cons, countKeyIn_cons, hg e, ih]

theorem countKeyIn_ledgerInsert_le (l : VoteLedger) (fid voter : String)
    (v : VoteValue) (k : String × String) (h : countKeyIn l k ≤ 1) :
    countKeyIn (ledgerInsert l fid voter v) k ≤ 1 := by
  unfold ledgerInsert
  by_cases hany : l.any (fun e => e.1 = (fid, voter)) = true
  · rw [if_pos hany, countKeyIn_map_keyfix]
    · exact h
    · intro e
      by_cases he : e.1 = (fid, voter) <;> simp [he]
  · rw [if_neg hany]
    have happ : countKeyIn (l ++ [((fid, voter), v)]) k =
        countKeyIn l k + (if ((fid, voter) : String × String) = k then 1 else 0) := by
      simp only [countKeyIn, List.filter_append, List.length_append]
      by_cases hk : ((fid, voter) : String × String) = k <;> simp [hk]
    rw [happ]
    by_cases hk : ((fid, voter) : String × String) = k
    · have h0 : countKeyIn l k = 0 := by
        subst hk
        simp only [countKeyIn, List.length_eq_zero]
        rw [List.filter_eq_nil_iff]
        intro e he
        simp only [decide_eq_true_eq]
        intro heq
        exact hany (List.any_eq_true.mpr ⟨e, he, by simp [heq]⟩)
      simp [hk, h0]
    · simp [hk]
      omega

theorem countKeyIn_applyVotes_le (ops : List ((String × String) × VoteValue))
    (k : String × String) : countKeyIn (applyVotes ops) k ≤ 1 := by
  suffices h : ∀ l : VoteLedger, (∀ k2, countKeyIn l k2 ≤ 1) →
      ∀ k2, countKeyIn
        (ops.foldl (fun l op => ledgerInsert l op.1.1 op.1.2 op.2) l) k2 ≤ 1 by
    exact h [] (fun _ => by simp [countKeyIn]) k
  induction ops with
  | nil => intro l h k2; exact h k2
  | cons op rest ih =>
    intro l h k2
    exact ih _ (fun k3 => countKeyIn_ledgerInsert_le _ _ _ _ _ (h k3)) k2

theorem any_of_ledgerLookup (l : VoteLedger) (k : String × String) (w : VoteValue)
    (h : ledgerLookup l k = some w) : l.any (fun e => e.1 = k) = true := by
  induction l with
  | nil => simp [ledgerLookup] at h
  | cons e rest ih =>
    by_cases he : e.1 = k
    · simp [he]
    · simp only [ledgerLookup, List.find?_cons] at h
      rw [show (decide (e.1 = k)) = false by simp [he]] at h
      have hrest := ih h
      simp [List.any_cons, he, hrest]

theorem voteCount_flip (l : VoteLedger) (fid voter : String)
    (oldv newv w : VoteValue)
    (huniq : countKeyIn l (fid, voter) ≤ 1)
    (hlook : ledgerLookup l (fid, voter) = some oldv) :
    voteCountOf
        (l.map (fun e => if e.1 = (fid, voter) then ((fid, voter), newv) else e))
        fid w + (if oldv = w then 1 else 0) =
      voteCountOf l fid w + (if newv = w then 1 else 0) := by
  induction l with
  | nil => simp [ledgerLookup] at hlook
  | cons e rest ih =>
    by_cases he : e.1 = (fid, voter)
    · have he2 : e.2 = oldv := by
        simp only [ledgerLookup, List.find?_cons] at hlook
        rw [show (decide (e.1 = (fid, voter))) = true by simp [he]] at hlook
        simpa using hlook
      have hrest0 : countKeyIn rest (fid, voter) = 0 := by
        rw [countKeyIn_cons, if_pos he] at huniq
        omega
      have hnokey : ∀ e2 ∈ rest, ¬ (e2.1 = (fid, voter)) := by
        have hnil := List.filter_eq_nil_iff.mp (List.length_eq_zero.mp hrest0)
        intro e2 hm
        have h2 := hnil e2 hm
        simpa using h2
      have hmapfix : ∀ e2 ∈ rest,
          (if e2.1 = (fid, voter) then ((fid, voter), newv) else e2) = id e2 := by
        intro e2 hm
        simp [hnokey e2 hm]
      have hmap : rest.map
          (fun e2 => if e2.1 = (fid, voter) then ((fid, voter), newv) else e2) =
          rest := by
        rw [List.map_congr_left hmapfix, List.map_id]
      have hef : e.1.1 = fid := by rw [he]
      rw [List.map_cons, if_pos he, hmap, voteCountOf_cons, voteCountOf_cons]
      simp only [hef, he2]
      by_cases h1 : newv = w <;> by_cases h2 : oldv = w <;> simp [h1, h2] <;> omega
    · have hlook2 : ledgerLookup rest (fid, voter) = some oldv := by
        simp only [ledgerLookup, List.find?_cons] at hlook
        rw [show (decide (e.1 = (fid, voter))) = false by simp [he]] at hlook
        exact hlook
      have huniq2 : countKeyIn rest (fid, voter) ≤ 1 := by
        rw [countKeyIn_cons, if_neg he] at huniq
        omega
      have ihx := ih huniq2 hlook2
      rw [List.map_cons, if_neg he, voteCountOf_cons, voteCountOf_cons]
      by_cases hc : e.1.1 = fid ∧ e.2 = w <;> simp [hc] <;> omega

theorem likes_add_dislikes (l : VoteLedger) (fid : String) :
    likesOf l fid + dislikesOf l fid =
      (l.filter (fun e => e.1.1 = fid)).length := by
  induction l with
  | nil => rfl
  | cons e rest ih =>
    have hl : likesOf (e :: rest) fid = voteCountOf (e :: rest) fid .Like := rfl
    have hd : dislikesOf (e :: rest) fid = voteCountOf (e :: rest) fid .Dislike := rfl
    rw [hl, hd, voteCountOf_cons, voteCountOf_cons, List.filter_cons]
    have hl2 : likesOf rest fid = voteCountOf rest fid .Like := rfl
    have hd2 : dislikesOf rest fid = voteCountOf rest fid .Dislike := rfl
    rw [hl2, hd2] at ih
    by_cases hf : e.1.1 = fid
    · cases hv : e.2 <;> simp [hf, hv] <;> omega
    · simp [hf]
      omega

theorem ledgerInsert_of_present (l : VoteLedger) (fid voter : String)
    (v : VoteValue) (h : l.any (fun e => e.1 = (fid, voter)) = true) :
    ledgerInsert l fid voter v =
      l.map (fun e => if e.1 = (fid, voter) then ((fid, voter), v) else e) := by
  unfold ledgerInsert
  rw [if_pos h]

/-- C6: the ledger built by any sequence of upserts holds at most one
vote per `(facility_id, voter_key)` pair; `likes + dislikes` of a
facility's summary counts exactly its ledger entries (so one voter
contributes at most 1 to it); and upserting the opposite vote flips the
prior one, moving `(likes, dislikes)` by exactly 1 in opposite
directions. -/
theorem C6_vote_ledger (ops : List ((String × String) × VoteValue))
    (fid voter : String) :
    countKeyIn (applyVotes ops) (fid, voter) ≤ 1 ∧
    likesOf (applyVotes ops) fid + dislikesOf (applyVotes ops) fid =
      ((applyVotes ops).filter (fun e => e.1.1 = fid)).length ∧
    (ledgerLookup (applyVotes ops) (fid, voter) = some .Like →
      (upsert_facility_vote (applyVotes ops) fid voter .Dislike).2.likes + 1 =
          likesOf (applyVotes ops) fid ∧
        (upsert_facility_vote (applyVotes ops) fid voter .Dislike).2.dislikes =
          dislikesOf (applyVotes ops) fid + 1) ∧
    (ledgerLookup (applyVotes ops) (fid, voter) = some .Dislike →
      (upsert_facility_vote (applyVotes ops) fid voter .Like).2.likes =
          likesOf (applyVotes ops) fid + 1 ∧
        (upsert_facility_vote (applyVotes ops) fid voter .Like).2.dislikes + 1 =
          dislikesOf (applyVotes ops) fid) := by
  have huniq := countKeyIn_applyVotes_le ops (fid, voter)
  refine ⟨huniq, likes_add_dislikes _ fid, ?_, ?_⟩
  · intro hlook
    have hpresent := any_of_ledgerLookup _ _ _ hlook
    have hlike := voteCount_flip (applyVotes ops) fid voter .Like .Dislike .Like
      huniq hlook
    have hdis := voteCount_flip (applyVotes ops) fid voter .Like .Dislike .Dislike
      huniq hlook
    simp only [reduceIte] at hlike hdis
    constructor
    · show likesOf (ledgerInsert (applyVotes ops) fid voter .Dislike) fid + 1 =
        likesOf (applyVotes ops) fid
      rw [ledgerInsert_of_present _ _ _ _ hpresent]
      simpa using hlike
    · show dislikesOf (ledgerInsert (applyVotes ops) fid voter .Dislike) fid =
        dislikesOf (applyVotes ops) fid + 1
      rw [ledgerInsert_of_present _ _ _ _ hpresent]
      simpa using hdis
  · intro hlook
    have hpresent := any_of_ledgerLookup _ _ _ hlook
    have hlike := voteCount_flip (applyVotes ops) fid voter .Dislike .Like .Like
      huniq hlook
    have hdis := voteCount_flip (applyVotes ops) fid voter .Dislike .Like .Dislike
      huniq hlook
    simp only [reduceIte] at hlike hdis
    constructor
    · show likesOf (ledgerInsert (applyVotes ops) fid voter .Like) fid =
        likesOf (applyVotes ops) fid + 1
      rw [ledgerInsert_of_present _ _ _ _ hpresent]
      simpa using hlike
    · show dislikesOf (ledgerInsert (applyVotes ops) fid voter .Like) fid + 1 =
        dislikesOf (applyVotes ops) fid
      rw [ledgerInsert_of_present _ _ _ _ hpresent]
      simpa using hdis

/-- C6 witness: one voter likes `f`, then flips to dislike: the summary
moves from (1,0) to (0,1). -/
theorem C6_vote_ledger_witness :
    ledgerLookup (applyVotes ops0) ("f", "v") = some .Like ∧
    ((upsert_facility_vote (applyVotes ops0) "f" "v" .Dislike).2.likes + 1 =
        likesOf (applyVotes ops0) "f" ∧
      (upsert_facility_vote (applyVotes ops0) "f" "v" .Dislike).2.dislikes =
        dislikesOf (applyVotes ops0) "f" + 1) ∧
    countKeyIn (applyVotes ops0) ("f", "v") ≤ 1 :=
  ⟨rfl, (C6_vote_ledger ops0 "f" "v").2.2.1 rfl, (C6_vote_ledger ops0 "f" "v").1⟩

theorem pairwise_insertLe (le : α → α → Bool)
    (htrans : ∀ a b c, le a b = true → le b c = true → le a c = true)
    (htot : ∀ a b, le a b = false → le b a = true)
    (x : α) (l : List α) (hl : l.Pairwise (fun a b => le a b = true)) :
    (insertLe le x l).Pairwise (fun a b => le a b = true) := by
  induction l with
  | nil => simp [insertLe]
  | cons y ys ih =>
    obtain ⟨hy, hys⟩ := List.pairwise_cons.mp hl
    unfold insertLe
    by_cases h : le x y = true
    · rw [if_pos h]
      refine List.pairwise_cons.mpr ⟨?_, hl⟩
      intro z hz
      rcases List.mem_cons.mp hz with hzy | hz2
      · rw [hzy]
        exact h
      · exact htrans x y z h (hy z hz2)
    · rw [if_neg h]
      refine List.pairwise_cons.mpr ⟨?_, ih hys⟩
      intro z hz
      rcases (mem_insertLe le x z ys).mp hz with hzx | hz2
      · rw [hzx]
        have hfalse : le x y = false := by
          revert h
          cases le x y <;> simp
        exact htot x y hfalse
      · exact hy z hz2

theorem pairwise_stableSort (le : α → α → Bool)
    (htrans : ∀ a b c, le a b = true → le b c = true → le a c = true)
    (htot : ∀ a b, le a b = false → le b a = true) (l : List α) :
    (stableSort le l).Pairwise (fun a b => le a b = true) := by
  induction l with
  | nil => simp [stableSort]
  | cons x xs ih => exact pairwise_insertLe le htrans htot x _ ih

theorem ordThen_eq_lt (o1 o2 : Ordering) :
    o1.then o2 = .lt ↔ (o1 = .lt ∨ (o1 = .eq ∧ o2 = .lt)) := by
  cases o1 <;> simp [Ordering.then]

theorem ordThen_eq_eq (o1 o2 : Ordering) :
    o1.then o2 = .eq ↔ (o1 = .eq ∧ o2 = .eq) := by
  cases o1 <;> simp [Ordering.then]

theorem ordThen_ne_gt (o1 o2 : Ordering) :
    o1.then o2 ≠ .gt ↔ (o1 = .lt ∨ (o1 = .eq ∧ o2 ≠ .gt)) := by
  cases o1 <;> simp [Ordering.then]

theorem cmpNat_eq_lt_iff (a b : Nat) : cmpNat a b = .lt ↔ a < b := by
  unfold cmpNat
  split_ifs <;> simp_all <;> omega

theorem cmpNat_eq_eq_iff (a b : Nat) : cmpNat a b = .eq ↔ a = b := by
  unfold cmpNat
  split_ifs <;> simp_all <;> omega

theorem cmpNat_ne_gt_iff (a b : Nat) : cmpNat a b ≠ .gt ↔ a ≤ b := by
  unfold cmpNat
  split_ifs <;> simp_all <;> omega

theorem cmpInt_eq_lt_iff (a b : Int) : cmpInt a b = .lt ↔ a < b := by
  unfold cmpInt
  split_ifs <;> simp_all <;> omega

theorem cmpInt_eq_eq_iff (a b : Int) : cmpInt a b = .eq ↔ a = b := by
  unfold cmpInt
  split_ifs <;> simp_all <;> omega

theorem cmpInt_ne_gt_iff (a b : Int) : cmpInt a b ≠ .gt ↔ a ≤ b := by
  unfold cmpInt
  split_ifs <;> simp_all <;> omega

theorem ordBneGt_eq_true_iff (o : Ordering) :
    (o != Ordering.gt) = true ↔ o ≠ Ordering.gt := by
  cases o <;> decide

theorem cmpLe_topPicksCmp_iff (a b : Facility × FacilityVoteSummary) :
    cmpLe topPicksCmp a b = true ↔
      (b.2.likes < a.2.likes ∨ (b.2.likes = a.2.likes ∧
        (b.2.score < a.2.score ∨ (b.2.score = a.2.score ∧
          (b.1.trust_score < a.1.trust_score ∨
            (b.1.trust_score = a.1.trust_score ∧
              b.1.updated_at ≤ a.1.updated_at)))))) := by
  unfold cmpLe topPicksCmp
  simp only [ordBneGt_eq_true_iff, ordThen_ne_gt, ordThen_eq_lt, ordThen_eq_eq,
    cmpNat_eq_lt_iff, cmpNat_eq_eq_iff, cmpInt_eq_lt_iff, cmpInt_eq_eq_iff,
    cmpInt_ne_gt_iff]
  tauto

theorem topPicksCmp_le_trans (a b c : Facility × FacilityVoteSummary)
    (hab : cmpLe topPicksCmp a b = true) (hbc : cmpLe topPicksCmp b c = true) :
    cmpLe topPicksCmp a c = true := by
  rw [cmpLe_topPicksCmp_iff] at hab hbc ⊢
  omega

theorem topPicksCmp_le_total (a b : Facility × FacilityVoteSummary)
    (h : cmpLe topPicksCmp a b = false) : cmpLe topPicksCmp b a = true := by
  have h2 : ¬ (cmpLe topPicksCmp a b = true) := by simp [h]
  rw [cmpLe_topPicksCmp_iff] at h2
  rw [cmpLe_topPicksCmp_iff]
  omega

/-- C9 counterexample: at `limit = 0` the code clamps the limit to
`[1, 50]` and can return one entry, while the claim's bound
`min(limit, 50)` is 0. -/
theorem C9_counterexample :
    (DirectoryService.top_picks [facOC] ledgerTP 0).length = 1 ∧
    ¬ ((DirectoryService.top_picks [facOC] ledgerTP 0).length ≤ min 0 50) := by
  constructor <;> decide

/-- C9 (amended): `top_picks(limit)` returns at most
`min(max(limit, 1), 50)` entries (the code clamps the limit to `[1, 50]`,
so a limit of 0 still admits one entry); every returned facility has at
least one like; each entry is its facility paired with that facility's
vote summary; and the pre-projection list is ordered by likes descending,
then likes − dislikes descending, then trust score descending, then
`updated_at` descending. -/
theorem C9_top_picks (facilities : List Facility) (ledger : VoteLedger)
    (limit : Nat) :
    let r := DirectoryService.top_picks facilities ledger limit
    r.length ≤ min (max limit 1) 50 ∧
    (∀ s ∈ r, 0 < s.likes) ∧
    (∀ s ∈ r, ∃ f ∈ facilities, s = to_summary f (summaryFor ledger f.id)) ∧
    ((topPicksRanked facilities ledger).take (min (max limit 1) 50)).Pairwise
      (fun a b => cmpLe topPicksCmp a b = true) ∧
    r = ((topPicksRanked facilities ledger).take (min (max limit 1) 50)).map
      (fun p => to_summary p.1 p.2) := by
  intro r
  have hsorted : (topPicksRanked facilities ledger).Pairwise
      (fun a b => cmpLe topPicksCmp a b = true) :=
    pairwise_stableSort _ topPicksCmp_le_trans topPicksCmp_le_total _
  have hmem : ∀ s ∈ r, ∃ p ∈ (facilities.map
      (fun f => (f, summaryFor ledger f.id))).filter (fun p => 0 < p.2.likes),
      s = to_summary p.1 p.2 := by
    intro s hs
    obtain ⟨p, hp, hps⟩ := List.mem_map.mp hs
    refine ⟨p, ?_, hps.symm⟩
    exact (mem_stableSort _ _ _).mp (List.mem_of_mem_take hp)
  refine ⟨?_, ?_, ?_, List.Pairwise.sublist (List.take_sublist _ _) hsorted, rfl⟩
  · show (((topPicksRanked facilities ledger).take (min (max limit 1) 50)).map
      (fun p => to_summary p.1 p.2)).length ≤ min (max limit 1) 50
    rw [List.length_map, List.length_take]
    exact min_le_left _ _
  · intro s hs
    obtain ⟨p, hp, rfl⟩ := hmem s hs
    have hlikes := List.of_mem_filter hp
    simpa [to_summary] using hlikes
  · intro s hs
    obtain ⟨p, hp, rfl⟩ := hmem s hs
    obtain ⟨hpm, _⟩ := List.mem_filter.mp hp
    obtain ⟨f, hf, rfl⟩ := List.mem_map.mp hpm
    exact ⟨f, hf, rfl⟩

/-- C9 witness: one liked facility at `limit = 10`. -/
theorem C9_top_picks_witness :
    (DirectoryService.top_picks [facOC] ledgerTP 10).length ≤ min (max 10 1) 50 ∧
    0 < (to_summary facOC (summaryFor ledgerTP facOC.id)).likes := by
  have h := C9_top_picks [facOC] ledgerTP 10
  exact ⟨h.1, h.2.1 (to_summary facOC (summaryFor ledgerTP facOC.id)) (by decide)⟩

theorem score_numeric_le (raw : Rat) :
    (Int.floor (max 0 (min raw 100))).toNat ≤ 100 := by
  have hle : max 0 (min raw 100) ≤ (100 : Rat) := by
    apply max_le
    · norm_num
    · exact min_le_right _ _
  have hfloor : Int.floor (max 0 (min raw 100)) ≤ (100 : Int) := by
    have := Int.floor_le_floor hle
    simpa using this
  omega

theorem letter_branch_eq (g : String) :
    (match asciiUpper g with
      | "A" => 95
      | "B" => 84
      | "C" => 74
      | _ => (65 : Nat)) =
      (if asciiUpper g = "A" then 95
        else if asciiUpper g = "B" then 84
        else if asciiUpper g = "C" then 74
        else 65) := by
  split <;> simp_all

theorem placard_branch_eq (p : String) :
    (match asciiLower p with
      | "green" => 95
      | "pass" => 95
      | "yellow" => 74
      | "conditional" => 74
      | "red" => 40
      | "closed" => 40
      | _ => (60 : Nat)) =
      (if asciiLower p = "green" ∨ asciiLower p = "pass" then 95
        else if asciiLower p = "yellow" ∨ asciiLower p = "conditional" then 74
        else if asciiLower p = "red" ∨ asciiLower p = "closed" then 40
        else 60) := by
  split <;> simp_all

/-- The evaluator of the code agrees with the amended reference everywhere. -/
theorem score_eq_amended (signals : ScoreSignals) :
    TrustScoreService.score signals = amendedScore signals := by
  obtain ⟨r, g, p⟩ := signals
  cases r with
  | some raw => rfl
  | none =>
    cases g with
    | some grade =>
      simpa [TrustScoreService.score, amendedScore] using letter_branch_eq grade
    | none =>
      cases p with
      | some placard =>
        simpa [TrustScoreService.score, amendedScore] using placard_branch_eq placard
      | none => rfl

/-- C4, counterexample: on the lowercase grade "a" the code returns 95
(it uppercases before comparing) while the reference definition of the
claim — which compares letters literally — returns 65. -/
theorem C4_counterexample :
    TrustScoreService.score ⟨none, some "a", none⟩ = 95 ∧
      claimedScore ⟨none, some "a", none⟩ = 65 := by
  constructor <;> decide

/-- C4 (amended): the trust-score evaluator is a pure function that always
returns a value in [0,100] and equals the reference definition with
precedence numeric > letter > placard > default, where the letter grade —
like the placard — is compared after ASCII case folding. -/
theorem C4_trust_score (signals : ScoreSignals) :
    TrustScoreService.score signals = amendedScore signals ∧
      TrustScoreService.score signals ≤ 100 := by
  refine ⟨score_eq_amended signals, ?_⟩
  obtain ⟨r, g, p⟩ := signals
  cases r with
  | some raw => simpa [TrustScoreService.score] using score_numeric_le raw
  | none =>
    cases g with
    | some grade =>
      simp only [TrustScoreService.score]
      split <;> omega
    | none =>
      cases p with
      | some placard =>
        simp only [TrustScoreService.score]
        split <;> omega
      | none => simp [TrustScoreService.score]

end Trustarant
